import Mathlib

/-!
Verification of the `namespace_c` transpiler (`src/main.py`).

The development shallowly embeds the transformation pipeline of
`CodeParser` / `CodeGenerator` / `CodeTransformer` from `main.py`.
Python strings are `String` (lists of characters); the fixed regular
expressions of the source are hand-compiled into character-list
matchers that follow Python `re` semantics (leftmost match, greedy
and lazy quantifiers, word boundaries, MULTILINE anchors) for the
given concrete patterns.  Python dicts (insertion ordered, key
re-assignment keeps position) are association lists with an
order-preserving insert.  `parse_functions` and the hierarchy builder
are omitted: their results (`functions_metadata`, `hierarchy`) are
stored by `CodeTransformer` but never used by any step of
`CodeGenerator.generate`, so they cannot affect the transformed text.
-/

namespace NamespaceC

/-- Left brace character, written by code point to keep string literals plain. -/
def lbrace : Char := Char.ofNat 123

/-- Right brace character. -/
def rbrace : Char := Char.ofNat 125

/-- Python `\w` over the ASCII inputs of this program: letters, digits, underscore. -/
def isWordCh (c : Char) : Bool := c.isAlpha || c.isDigit || c = '_'

/-- First character of `[a-zA-Z_][a-zA-Z0-9_]*` identifiers. -/
def isIdentStart (c : Char) : Bool := c.isAlpha || c = '_'

/-- Python `\s` and the characters `str.strip` removes on this program's inputs:
space, tab, newline, carriage return, vertical tab, form feed. -/
def pyIsSpace (c : Char) : Bool :=
  c = ' ' || c = '\t' || c = '\n' || c = '\r' || c = Char.ofNat 11 || c = Char.ofNat 12

/-- Horizontal whitespace: Python `[^\S\n]` (resp. `[^\S\n\r]`), i.e. whitespace
that is not a newline (the inputs here contain no carriage returns). -/
def isHSpace (c : Char) : Bool :=
  c = ' ' || c = '\t' || c = '\r' || c = Char.ofNat 11 || c = Char.ofNat 12

/-- Python `str.strip()` on a character list. -/
def stripL (l : List Char) : List Char :=
  ((l.dropWhile pyIsSpace).reverse.dropWhile pyIsSpace).reverse

/-- Python `str.strip()`. -/
def pyStrip (s : String) : String := String.mk (stripL s.data)

/-- Python `str.rstrip(',')`. -/
def pyRstripComma (s : String) : String :=
  String.mk ((s.data.reverse.dropWhile (fun c => c = ',')).reverse)

/-- Count occurrences of a character, Python `str.count(c)`. -/
def countCh (l : List Char) (c : Char) : Nat := l.countP (fun d => d = c)

/-- Python `'\n'.join(lines)`. -/
def joinNl : List String → String
  | [] => ""
  | [s] => s
  | s :: rest => s ++ "\n" ++ joinNl rest

/-- Python `str.split('\n')`: split on every newline; `"" ↦ [""]`. -/
def splitNlGo (acc : List Char) : List Char → List String
  | [] => [String.mk acc.reverse]
  | c :: rest =>
    if c = '\n' then String.mk acc.reverse :: splitNlGo [] rest
    else splitNlGo (c :: acc) rest

/-- Python `str.split('\n')`. -/
def splitNl (s : String) : List String := splitNlGo [] s.data

/-- Line-break characters of Python `str.splitlines` other than `'\n'` and `'\r'`. -/
def isExoticBreak (c : Char) : Bool :=
  c = Char.ofNat 11 || c = Char.ofNat 12 || c = Char.ofNat 28 ||
  c = Char.ofNat 29 || c = Char.ofNat 30 || c = Char.ofNat 133 ||
  c = Char.ofNat 8232 || c = Char.ofNat 8233

/-- Length of the line boundary at the head of the list (`\r\n` counts as a
single two-character boundary); `0` when the head is not a boundary. -/
def breakLen : List Char → Nat
  | [] => 0
  | c :: rest =>
    if c = '\r' then (if rest.head? = some '\n' then 2 else 1)
    else if c = '\n' || isExoticBreak c then 1 else 0

/-- Worker for Python `str.splitlines()`; the fuel (at least the list length)
only forces structural recursion and never runs out. -/
def splitlinesGo (fuel : Nat) (acc : List Char) (l : List Char) : List String :=
  match fuel with
  | 0 => if acc.isEmpty && l.isEmpty then [] else [String.mk (acc.reverse ++ l)]
  | fuel + 1 =>
    match l with
    | [] => if acc.isEmpty then [] else [String.mk acc.reverse]
    | c :: rest =>
      let k := breakLen (c :: rest)
      if k = 0 then splitlinesGo fuel (c :: acc) rest
      else String.mk acc.reverse :: splitlinesGo fuel [] ((c :: rest).drop k)

/-- Python `str.splitlines()`. -/
def pySplitlines (s : String) : List String :=
  splitlinesGo s.data.length [] s.data

/-- Substring test used to state facts about emitted text. -/
def containsSubL (hay pat : List Char) : Bool :=
  match hay with
  | [] => pat.isEmpty
  | _ :: rest => pat.isPrefixOf hay || containsSubL rest pat

/-- Substring test on strings. -/
def containsSub (hay pat : String) : Bool := containsSubL hay.data pat.data

/-- Match a literal character list at the head, returning the remainder. -/
def dropLit : List Char → List Char → Option (List Char)
  | [], l => some l
  | c :: cs, d :: ds => if d = c then dropLit cs ds else none
  | _ :: _, [] => none

/-- Python `str.rsplit(' ', 1)`: split at the last single space character. -/
def pyRsplitOnce (s : String) : List String :=
  let l := s.data
  let post := (l.reverse.takeWhile (fun c => c ≠ ' ')).reverse
  if post.length = l.length then [s]
  else [String.mk (l.take (l.length - post.length - 1)), String.mk post]

/-! ## Data model (`Variable`, `Method`, `StructMetadata`, main.py lines 21-51) -/

/-- `Variable` dataclass (main.py lines 21-31).  `array` defaults to `""` as
produced by `parse_variable_declaration`; `value`, `comments`, `rest` keep the
`Optional` shape. -/
structure Variable where
  type : String
  name : String
  keywords : String := ""
  ptr_level : Nat := 0
  comments : Option String := none
  rest : Option String := none
  array : Option String := none
  value : Option String := none
deriving Repr, DecidableEq

/-- `Method` dataclass (main.py lines 33-42).  An argument is a pair of the
optional parsed type and the name, matching the `{"type": ..., "name": ...}`
dicts built by `replace_method`. -/
structure Method where
  comments : String
  return_type : String
  name : String
  arguments : List (Option String × String)
  body : String
  has_self : Bool
  ptr_level : Nat := 0
deriving Repr, DecidableEq

/-- `StructMetadata` dataclass (main.py lines 44-50).  The ordered dicts
`methods` and `globals` are association lists with order-preserving insert. -/
structure StructMetadata where
  vars : List Variable := []
  methods : List (String × Method) := []
  globals : List (String × Variable) := []
  done : Bool := false
deriving Repr, DecidableEq

/-- Python dict assignment `d[k] = v`: replace in place if the key exists,
otherwise append (insertion order preserved). -/
def dictInsert {β : Type} (d : List (String × β)) (k : String) (v : β) :
    List (String × β) :=
  match d with
  | [] => [(k, v)]
  | (k0, v0) :: rest =>
    if k0 = k then (k, v) :: rest else (k0, v0) :: dictInsert rest k v

/-- Python dict lookup `d[k]` / `k in d`. -/
def dictFind {β : Type} (d : List (String × β)) (k : String) : Option β :=
  match d with
  | [] => none
  | (k0, v0) :: rest => if k0 = k then some v0 else dictFind rest k

/-- The struct-metadata table `Dict[str, StructMetadata]`. -/
abbrev Meta := List (String × StructMetadata)

/-- A scope of the symbol-table stack: `Dict[str, Variable]`. -/
abbrev Scope := List (String × Variable)

/-- First hit of `f` over a list, used to order regex backtracking alternatives. -/
def firstSome {α β : Type} (f : α → Option β) : List α → Option β
  | [] => none
  | a :: rest =>
    match f a with
    | some b => some b
    | none => firstSome f rest

/-! ## The declaration grammar

`DECLARATION_PATTERN` (main.py line 120):
`\b(const\s+)?(unsigned\s+)?([a-zA-Z_][a-zA-Z0-9_]*)\s+((?:\*\s*)*)?([a-zA-Z_][a-zA-Z0-9_]*)\s*(\[\s*[a-zA-Z0-9_]*\s*\])?\s*(=\s*[^;]+)?;`
and `GLOBAL_VAR_PATTERN` (line 119), identical except that its star group
`(\*\s*)*` captures only the last repetition.  All quantifiers here are
greedy; each greedy run is followed by a requirement no shorter run could
satisfy, so only the optional `const`/`unsigned` keywords backtrack. -/

/-- Groups of a declaration match.  `g4full` is the whole star run
(`DECLARATION_PATTERN` group 4), `g4last` the last `\*\s*` repetition
(`GLOBAL_VAR_PATTERN` group 4, `none` when there are no stars).
`end3` is the offset of `end(3)` from the match start, `len` the total
length of the match. -/
structure DeclM where
  g1 : Option String
  g2 : Option String
  g3 : String
  g4full : String
  g4last : Option String
  g5 : String
  g6 : Option String
  g7 : Option String
  end3 : Nat
  len : Nat
deriving Repr, DecidableEq

/-- Match `const\s+` or `unsigned\s+`: the literal keyword then at least one
whitespace character (greedily consumed). -/
def tryKw (kw : List Char) (l : List Char) : Option (String × Nat × List Char) :=
  match dropLit kw l with
  | none => none
  | some r =>
    let ws := r.takeWhile pyIsSpace
    if ws.isEmpty then none
    else some (String.mk (kw ++ ws), kw.length + ws.length, r.drop ws.length)

/-- Greedy `(?:\*\s*)*` with fuel (structural recursion; the fuel never runs
out when it starts at the length of the list, since every repetition consumes
at least the star): returns the full captured text, the last repetition
(if any), the number of characters consumed, and the remainder. -/
def starsLoopGo (fuel : Nat) (l : List Char) :
    List Char × Option (List Char) × Nat × List Char :=
  match fuel, l with
  | fuel + 1, '*' :: rest =>
    let ws := rest.takeWhile pyIsSpace
    let iter := '*' :: ws
    let (full, lst, n, rem) := starsLoopGo fuel (rest.drop ws.length)
    (iter ++ full, some (lst.getD iter), iter.length + n, rem)
  | _, _ => ([], none, 0, l)

/-- Greedy `(?:\*\s*)*` at the head of `l`. -/
def starsLoop (l : List Char) : List Char × Option (List Char) × Nat × List Char :=
  starsLoopGo l.length l

/-- Optional array part `(\[\s*[a-zA-Z0-9_]*\s*\])?`. -/
def tryBracket (l : List Char) : Option (String × Nat × List Char) :=
  match l with
  | '[' :: r1 =>
    let ws1 := r1.takeWhile pyIsSpace
    let r2 := r1.drop ws1.length
    let nm := r2.takeWhile isWordCh
    let r3 := r2.drop nm.length
    let ws2 := r3.takeWhile pyIsSpace
    let r4 := r3.drop ws2.length
    match r4 with
    | ']' :: r5 =>
      some (String.mk ('[' :: (ws1 ++ nm ++ ws2 ++ [']'])),
            2 + ws1.length + nm.length + ws2.length, r5)
    | _ => none
  | _ => none

/-- Optional initializer part `(=\s*[^;]+)?`. -/
def tryInit (l : List Char) : Option (String × Nat × List Char) :=
  match l with
  | '=' :: r1 =>
    let ws := r1.takeWhile pyIsSpace
    let r2 := r1.drop ws.length
    let body := r2.takeWhile (fun c => c ≠ ';')
    if body.isEmpty then none
    else
      some (String.mk ('=' :: (ws ++ body)), 1 + ws.length + body.length,
            r2.drop body.length)
  | _ => none

/-- Deterministic tail of the declaration pattern after the optional keywords:
`TYPE \s+ STARS? NAME \s* ARRAY? \s* INIT? ;`.  `off` is the length already
consumed by the keywords. -/
def declCore (off : Nat) (l : List Char) : Option DeclM :=
  match l with
  | [] => none
  | c :: _ =>
    if isIdentStart c then
      let g3 := l.takeWhile isWordCh
      let r1 := l.drop g3.length
      let ws1 := r1.takeWhile pyIsSpace
      if ws1.isEmpty then none
      else
        let r2 := r1.drop ws1.length
        let (sFull, sLast, sn, r3) := starsLoop r2
        match r3 with
        | c2 :: _ =>
          if isIdentStart c2 then
            let g5 := r3.takeWhile isWordCh
            let r4 := r3.drop g5.length
            let ws2 := r4.takeWhile pyIsSpace
            let r5 := r4.drop ws2.length
            let b6 := tryBracket r5
            let g6 := b6.map (fun x => x.1)
            let n6 := (b6.map (fun x => x.2.1)).getD 0
            let r6 := (b6.map (fun x => x.2.2)).getD r5
            let ws3 := r6.takeWhile pyIsSpace
            let r7 := r6.drop ws3.length
            let b7 := tryInit r7
            let g7 := b7.map (fun x => x.1)
            let n7 := (b7.map (fun x => x.2.1)).getD 0
            let r8 := (b7.map (fun x => x.2.2)).getD r7
            match r8 with
            | ';' :: _ =>
              some { g1 := none, g2 := none, g3 := String.mk g3,
                     g4full := String.mk sFull, g4last := sLast.map String.mk,
                     g5 := String.mk g5, g6 := g6, g7 := g7,
                     end3 := off + g3.length,
                     len := off + g3.length + ws1.length + sn + g5.length +
                            ws2.length + n6 + ws3.length + n7 + 1 }
            | _ => none
          else none
        | [] => none
    else none

/-- Word-boundary test for a match starting at the head of `l`, where `prev`
is the character just before the match position (`none` at the start of the
can-didate string). -/
def atWordBoundary (prev : Option Char) (l : List Char) : Bool :=
  match l with
  | [] => false
  | c :: _ =>
    isWordCh c &&
      (match prev with
       | some p => !isWordCh p
       | none => true)

/-- Attempt the declaration pattern anchored at the head of `l`.  The optional
`const`/`unsigned` groups are tried greedily (both, first only, second only,
neither) with full backtracking. -/
def declTry (prev : Option Char) (l : List Char) : Option DeclM :=
  if atWordBoundary prev l then
    let alts : List (Option String × Option String × Nat × List Char) :=
      (match tryKw "const".data l with
       | some (k1, n1, r1) =>
         (match tryKw "unsigned".data r1 with
          | some (k2, n2, r2) =>
            [(some k1, some k2, n1 + n2, r2), (some k1, none, n1, r1)]
          | none => [(some k1, none, n1, r1)]) ++
         (match tryKw "unsigned".data l with
          | some (k2, n2, r2) => [(none, some k2, n2, r2)]
          | none => [])
       | none =>
         match tryKw "unsigned".data l with
         | some (k2, n2, r2) => [(none, some k2, n2, r2)]
         | none => []) ++ [(none, none, 0, l)]
    firstSome
      (fun alt =>
        (declCore alt.2.2.1 alt.2.2.2).map
          (fun m => { m with g1 := alt.1, g2 := alt.2.1 }))
      alts
  else none

/-- Unanchored leftmost search for the declaration pattern (`re.search` /
first match of `re.sub`): returns the start position and the match. -/
def declSearchGo (prev : Option Char) (pos : Nat) : List Char → Option (Nat × DeclM)
  | [] => none
  | c :: rest =>
    match declTry prev (c :: rest) with
    | some m => some (pos, m)
    | none => declSearchGo (some c) (pos + 1) rest

/-- Leftmost declaration match in a string. -/
def declSearch (s : String) : Option (Nat × DeclM) := declSearchGo none 0 s.data

/-- All non-overlapping declaration matches, in order (`re.finditer`). -/
def declFindAllGo (fuel : Nat) (prev : Option Char) (l : List Char) : List DeclM :=
  match fuel with
  | 0 => []
  | fuel + 1 =>
    match declSearchGo prev 0 l with
    | none => []
    | some (pos, m) =>
      let stop := pos + m.len
      m :: declFindAllGo fuel ((l.take stop).getLast?) (l.drop stop)

/-- All declaration matches of a string. -/
def declFindAll (s : String) : List DeclM :=
  declFindAllGo s.data.length none s.data

/-- `parse_variable_declaration` (main.py lines 81-103).  `useLast` selects the
`GLOBAL_VAR_PATTERN` reading of group 4 (only the last `\*\s*` repetition is
captured, so multi-star globals count a single `*`). -/
def parseVarDecl (useLast : Bool) (m : DeclM) : Variable :=
  let constKw := (m.g1.map pyStrip).getD ""
  let unsignedKw := (m.g2.map pyStrip).getD ""
  let varType := pyStrip m.g3
  let pointer :=
    if useLast then pyStrip ((m.g4last).getD "") else pyStrip m.g4full
  let ptrCount := countCh pointer.data '*'
  let varName := pyStrip m.g5
  let arr := (m.g6.map pyStrip).getD ""
  let varValue := m.g7.map pyStrip
  let kws := String.intercalate " " (([constKw, unsignedKw]).filter (fun s => s ≠ ""))
  let keywords := if kws.data.length ≠ 0 then kws ++ " " else kws
  { type := varType, keywords := keywords, name := varName,
    array := some arr, value := varValue, ptr_level := ptrCount }

/-! ## Struct body extraction (`parse_structs.extract_structs`, lines 138-163) -/

/-- The struct-header pattern `struct\s+(\w+)\s*\{` of `extract_structs` and
`replace_structs`, matched with `.match` (anchored at the start of the line):
returns the struct name on success. -/
def structHeaderName (l : List Char) : Option String :=
  match dropLit "struct".data l with
  | none => none
  | some r1 =>
    let ws := r1.takeWhile pyIsSpace
    if ws.isEmpty then none
    else
      let r2 := r1.drop ws.length
      let name := r2.takeWhile isWordCh
      if name.isEmpty then none
      else
        match (r2.drop name.length).dropWhile pyIsSpace with
        | c :: _ => if c = lbrace then some (String.mk name) else none
        | [] => none

/-- Header match on a line (string form). -/
def structHeader (line : String) : Option String := structHeaderName line.data

/-- Net brace count of a line, `line.count('{') - line.count('}')`. -/
def braceDelta (s : String) : Int :=
  (countCh s.data lbrace : Int) - (countCh s.data rbrace : Int)

/-- Body-collection loop of `extract_structs`: starting from `brace_count = bc`,
strip and collect lines while the count stays positive; returns the collected
lines, the remaining lines, and the final count. -/
def collectBody (bc : Int) : List String → List String × List String × Int
  | [] => ([], [], bc)
  | line :: rest =>
    if bc > 0 then
      let s := pyStrip line
      let (acc, rem, bf) := collectBody (bc + braceDelta s) rest
      (s :: acc, rem, bf)
    else ([], line :: rest, bc)

/-- `extract_structs` (main.py lines 138-163): scan the lines; at each header
collect the body by brace counting; a struct whose braces never close
(`brace_count != 0` at end of input) is silently not appended. -/
def extractGo (fuel : Nat) (lines : List String) : List (String × String) :=
  match fuel, lines with
  | 0, _ => []
  | _, [] => []
  | fuel + 1, line :: rest =>
    match structHeader line with
    | some name =>
      let (body, rem, bf) := collectBody 1 rest
      if bf = 0 then (name, joinNl (body.dropLast)) :: extractGo fuel rem
      else extractGo fuel rem
    | none => extractGo fuel rest

/-- `extract_structs` on a code string (split on newlines as in the source). -/
def extractStructs (code : String) : List (String × String) :=
  extractGo (splitNl code).length (splitNl code)

/-- Generic single-character split, Python `str.split(sep)` for a one-character
separator. -/
def splitChGo (sep : Char) (acc : List Char) : List Char → List String
  | [] => [String.mk acc.reverse]
  | c :: rest =>
    if c = sep then String.mk acc.reverse :: splitChGo sep [] rest
    else splitChGo sep (c :: acc) rest

/-- Python `str.split(',')`. -/
def splitComma (s : String) : List String := splitChGo ',' [] s.data

/-- Index of the first occurrence of `pat` in `hay`. -/
def findSubIdx (hay pat : List Char) : Option Nat :=
  match hay with
  | [] => if pat.isEmpty then some 0 else none
  | _ :: rest =>
    if pat.isPrefixOf hay then some 0
    else (findSubIdx rest pat).map (fun n => n + 1)

/-! ## Method extraction (`METHOD_PATTERN`, main.py line 113)

`((?:^[^\r\n]*\/\/.*\r?\n)*\s*)^\s*(\w+)\s+((?:\*\s*)*)?@(\w+)\s*\(([^)]*)\)\s*\{([\s\S]*?)\};`
compiled with `re.MULTILINE`.  Group 1 eats any run of `//`-comment lines plus
whitespace up to a line start; the rest is greedy except for the lazy body
`([\s\S]*?)` which stops at the first `};`. -/

/-- Groups of a method match; `len` is the whole match length. -/
structure MethodM where
  g1 : String
  g2 : String
  g3 : String
  g4 : String
  g5 : String
  g6 : String
  len : Nat
deriving Repr, DecidableEq

/-- One `[^\r\n]*\/\/.*\r?\n` comment line of `METHOD_PATTERN`, attempted at a
line start: succeeds when the current physical line contains `//` (before any
carriage return) and is terminated by a newline; returns the number of
characters consumed (through the newline). -/
def commentLineLen (l : List Char) : Option Nat :=
  let seg := l.takeWhile (fun c => c ≠ '\n' && c ≠ '\r')
  if containsSubL seg "//".data then
    (findSubIdx l ['\n']).map (fun j => j + 1)
  else none

/-- Greedy run of comment lines: the lengths consumed by `k, k-1, ..., 0`
comment lines, in the order regex backtracking explores them. -/
def commentRunsGo (fuel : Nat) (l : List Char) : List Nat :=
  match fuel with
  | 0 => [0]
  | fuel + 1 =>
    match commentLineLen l with
    | some n =>
      ((commentRunsGo fuel (l.drop n)).map (fun m => n + m)) ++ [0]
    | none => [0]

/-- Deterministic tail of `METHOD_PATTERN` from a line start (after group 1 and
the `^` anchor): `\s* (\w+) \s+ STARS? @ (\w+) \s* \( ([^)]*) \) \s* \{ BODY };`.
Returns groups 2-6 and the consumed length. -/
def methodCore (l : List Char) :
    Option (String × String × String × String × String × Nat) :=
  let ws2 := l.takeWhile pyIsSpace
  let r1 := l.drop ws2.length
  let g2 := r1.takeWhile isWordCh
  if g2.isEmpty then none
  else
    let r2 := r1.drop g2.length
    let ws3 := r2.takeWhile pyIsSpace
    if ws3.isEmpty then none
    else
      let r3 := r2.drop ws3.length
      let (sFull, _, sn, r4) := starsLoop r3
      match r4 with
      | '@' :: r5 =>
        let g4 := r5.takeWhile isWordCh
        if g4.isEmpty then none
        else
          let r6 := r5.drop g4.length
          let ws4 := r6.takeWhile pyIsSpace
          match r6.drop ws4.length with
          | '(' :: r7 =>
            let g5 := r7.takeWhile (fun c => c ≠ ')')
            match r7.drop g5.length with
            | ')' :: r8 =>
              let ws5 := r8.takeWhile pyIsSpace
              match r8.drop ws5.length with
              | c :: r9 =>
                if c = lbrace then
                  match findSubIdx r9 [rbrace, ';'] with
                  | some j =>
                    some (String.mk g2, String.mk sFull, String.mk g4,
                          String.mk g5, String.mk (r9.take j),
                          ws2.length + g2.length + ws3.length + sn + 1 +
                            g4.length + ws4.length + 1 + g5.length + 1 +
                            ws5.length + 1 + j + 2)
                  | none => none
                else none
              | [] => none
            | _ => none
          | _ => none
      | _ => none

/-- Attempt `METHOD_PATTERN` at the head of `l`; `lineStart` records whether
this position begins a line (for the `MULTILINE` `^` anchors).  Group 1's
comment run and its trailing `\s*` are backtracked greedily; the `^` between
them and the core restricts the whitespace run to end at a line start. -/
def methodTry (lineStart : Bool) (l : List Char) : Option MethodM :=
  let runs := if lineStart then commentRunsGo l.length l else [0]
  firstSome
    (fun c =>
      let r := l.drop c
      let ws := r.takeWhile pyIsSpace
      -- candidate ends `q` of the group-1 `\s*`, longest first, each of which
      -- must sit at a line start (string start, just after a comment line's
      -- newline, or just after a newline inside the whitespace run)
      let qs := (List.range (ws.length + 1)).reverse.filter
        (fun j =>
          if j = 0 then c > 0 || lineStart
          else ws.get? (j - 1) = some '\n')
      firstSome
        (fun q =>
          (methodCore (r.drop q)).map
            (fun g =>
              { g1 := String.mk (l.take (c + q)), g2 := g.1, g3 := g.2.1,
                g4 := g.2.2.1, g5 := g.2.2.2.1, g6 := g.2.2.2.2.1,
                len := c + q + g.2.2.2.2.2 }))
        qs)
    runs

/-- Driver for `re.sub(METHOD_PATTERN, ..., body, flags=re.MULTILINE)` where the
callback removes the match and records it: returns the residual text and the
matches in order. -/
def methodSubGo (fuel : Nat) (lineStart : Bool) (l : List Char) :
    List Char × List MethodM :=
  match fuel with
  | 0 => (l, [])
  | fuel + 1 =>
    match l with
    | [] => ([], [])
    | c :: rest =>
      match methodTry lineStart l with
      | some m =>
        if m.len = 0 then (l, [])
        else
          let (res, ms) :=
            methodSubGo fuel ((l.take m.len).getLast? = some '\n') (l.drop m.len)
          (res, m :: ms)
      | none =>
        let (res, ms) := methodSubGo fuel (c = '\n') rest
        (c :: res, ms)

/-- Method-extraction sub over a struct body (string form; position 0 of the
body is a string start, where `^` matches). -/
def methodSub (body : String) : String × List MethodM :=
  let (res, ms) := methodSubGo body.data.length true body.data
  (String.mk res, ms)

/-! ## Global extraction (`GLOBAL_PATTERN`, main.py line 114)

`((?:^[^\S\n]*\/\/.*$\r?\n)*)^[^\S\n\r]*\b(const\s+)?(unsigned\s+)?([a-zA-Z_][a-zA-Z0-9_]*)\s+((?:\*\s*)*)?@(\w+)(.*)?\s*;`
with `re.MULTILINE`.  Every match starts at a line start (group 1 has no
trailing `\s*`, and the `^` after it must hold). -/

/-- Groups of a global match. -/
structure GlobalM where
  g1 : String
  g2 : Option String
  g3 : Option String
  g4 : String
  g5 : String
  g6 : String
  g7 : String
  len : Nat
deriving Repr, DecidableEq

/-- One `^[^\S\n]*\/\/.*$\r?\n` comment line of `GLOBAL_PATTERN`: horizontal
whitespace, then `//` immediately, to the end of a newline-terminated line. -/
def gCommentLineLen (l : List Char) : Option Nat :=
  let hs := l.takeWhile isHSpace
  match dropLit "//".data (l.drop hs.length) with
  | some _ => (findSubIdx l ['\n']).map (fun j => j + 1)
  | none => none

/-- Greedy run of `GLOBAL_PATTERN` comment lines (lengths for k, ..., 0). -/
def gCommentRunsGo (fuel : Nat) (l : List Char) : List Nat :=
  match fuel with
  | 0 => [0]
  | fuel + 1 =>
    match gCommentLineLen l with
    | some n =>
      ((gCommentRunsGo fuel (l.drop n)).map (fun m => n + m)) ++ [0]
    | none => [0]

/-- Horizontal whitespace excluding carriage return, `[^\S\n\r]`. -/
def isHSpace2 (c : Char) : Bool :=
  c = ' ' || c = '\t' || c = Char.ofNat 11 || c = Char.ofNat 12

/-- Deterministic tail of `GLOBAL_PATTERN` from a line start after group 1:
`[^\S\n\r]* \b KEYWORDS TYPE \s+ STARS? @ NAME (.*)? \s* ;`. -/
def globalCore (l : List Char) :
    Option (Option String × Option String × String × String × String × String × Nat) :=
  let hs := l.takeWhile isHSpace2
  let r0 := l.drop hs.length
  if atWordBoundary (if hs.isEmpty then none else some ' ') r0 then
    let alts : List (Option String × Option String × Nat × List Char) :=
      (match tryKw "const".data r0 with
       | some (k1, n1, r1) =>
         (match tryKw "unsigned".data r1 with
          | some (k2, n2, r2) =>
            [(some k1, some k2, n1 + n2, r2), (some k1, none, n1, r1)]
          | none => [(some k1, none, n1, r1)]) ++
         (match tryKw "unsigned".data r0 with
          | some (k2, n2, r2) => [(none, some k2, n2, r2)]
          | none => [])
       | none =>
         match tryKw "unsigned".data r0 with
         | some (k2, n2, r2) => [(none, some k2, n2, r2)]
         | none => []) ++ [(none, none, 0, r0)]
    firstSome
      (fun alt =>
        let off := alt.2.2.1
        let r := alt.2.2.2
        match r with
        | [] => none
        | c :: _ =>
          if isIdentStart c then
            let g4 := r.takeWhile isWordCh
            let r1 := r.drop g4.length
            let ws1 := r1.takeWhile pyIsSpace
            if ws1.isEmpty then none
            else
              let r2 := r1.drop ws1.length
              let (sFull, _, sn, r3) := starsLoop r2
              match r3 with
              | '@' :: r4 =>
                let g6 := r4.takeWhile isWordCh
                if g6.isEmpty then none
                else
                  let r5 := r4.drop g6.length
                  -- `(.*)?\s*;`: greedy rest-of-line, backtracked until the
                  -- remainder is whitespace (possibly crossing newlines) then `;`
                  let lineRest := r5.takeWhile (fun c2 => c2 ≠ '\n')
                  let ds := (List.range (lineRest.length + 1)).reverse
                  firstSome
                    (fun d =>
                      let r6 := r5.drop d
                      let ws2 := r6.takeWhile pyIsSpace
                      match r6.drop ws2.length with
                      | ';' :: _ =>
                        some (alt.1, alt.2.1, String.mk g4, String.mk sFull,
                              String.mk g6, String.mk (r5.take d),
                              hs.length + off + g4.length + ws1.length + sn +
                                1 + g6.length + d + ws2.length + 1)
                      | _ => none)
                    ds
              | _ => none
          else none)
      alts
  else none

/-- Attempt `GLOBAL_PATTERN` at the head of `l` (only meaningful at a line
start; elsewhere the `^` anchors fail). -/
def globalTry (lineStart : Bool) (l : List Char) : Option GlobalM :=
  if lineStart then
    let runs := gCommentRunsGo l.length l
    firstSome
      (fun c =>
        (globalCore (l.drop c)).map
          (fun g =>
            { g1 := String.mk (l.take c), g2 := g.1, g3 := g.2.1,
              g4 := g.2.2.1, g5 := g.2.2.2.1, g6 := g.2.2.2.2.1,
              g7 := g.2.2.2.2.2.1, len := c + g.2.2.2.2.2.2 }))
      runs
  else none

/-- Driver for `re.sub(GLOBAL_PATTERN, ..., body, flags=re.MULTILINE)`. -/
def globalSubGo (fuel : Nat) (lineStart : Bool) (l : List Char) :
    List Char × List GlobalM :=
  match fuel with
  | 0 => (l, [])
  | fuel + 1 =>
    match l with
    | [] => ([], [])
    | c :: rest =>
      match globalTry lineStart l with
      | some m =>
        if m.len = 0 then (l, [])
        else
          let (res, ms) :=
            globalSubGo fuel ((l.take m.len).getLast? = some '\n') (l.drop m.len)
          (res, m :: ms)
      | none =>
        let (res, ms) := globalSubGo fuel (c = '\n') rest
        (c :: res, ms)

/-- Global-extraction sub over a struct body. -/
def globalSub (body : String) : String × List GlobalM :=
  let (res, ms) := globalSubGo body.data.length true body.data
  (String.mk res, ms)

/-! ## `replace_method`, `replace_global`, `parse_structs`, `parse_globals` -/

/-- The `has_self` test of `replace_method` (main.py line 205):
`re.match(rf"{struct_name}(?:_t)?\s+\*\s*self", first_argument)`. -/
def hasSelfMatch (structName : String) (arg : String) : Bool :=
  let tailPart := fun (r : List Char) =>
    let ws := r.takeWhile pyIsSpace
    if ws.isEmpty then false
    else
      match r.drop ws.length with
      | '*' :: r2 =>
        let ws2 := r2.takeWhile pyIsSpace
        (dropLit "self".data (r2.drop ws2.length)).isSome
      | _ => false
  match dropLit structName.data arg.data with
  | none => false
  | some r =>
    match dropLit "_t".data r with
    | some r2 => tailPart r2 || tailPart r
    | none => tailPart r

/-- Argument parsing of `replace_method`/`parse_arguments`: split at the last
single space; a space-free argument has no type. -/
def parseArg (arg : String) : Option String × String :=
  match pyRsplitOnce arg with
  | [t, n] => (some t, n)
  | _ => (none, arg)

/-- `replace_method` (main.py lines 191-232): build the `Method` record from a
match and store it under its name. -/
def replaceMethod (structName : String) (md : StructMetadata) (m : MethodM) :
    StructMetadata :=
  let comments := m.g1
  let returnType := pyStrip m.g2
  let pointersType := pyStrip m.g3
  let ptrCount := countCh pointersType.data '*'
  let methodName := pyStrip m.g4
  let args := pyStrip m.g5
  let body := pyStrip m.g6
  let argsList := ((splitComma args).map pyStrip).filter (fun a => a ≠ "")
  let hasSelf :=
    match argsList with
    | a0 :: _ => hasSelfMatch structName a0
    | [] => false
  let argsList2 := if hasSelf then argsList.tail else argsList
  let parsed := argsList2.map parseArg
  let meth : Method :=
    { comments := comments, return_type := returnType, name := methodName,
      arguments := parsed, body := body, has_self := hasSelf,
      ptr_level := ptrCount }
  { md with methods := dictInsert md.methods methodName meth }

/-- `replace_global` (main.py lines 234-256): build the global `Variable` from
a match and store it under its name. -/
def replaceGlobal (md : StructMetadata) (m : GlobalM) : StructMetadata :=
  let comments := pyStrip m.g1
  let constKw := (m.g2.map pyStrip).getD ""
  let unsignedKw := (m.g3.map pyStrip).getD ""
  let varType := pyStrip m.g4
  let pointer := pyStrip m.g5
  let ptrCount := countCh pointer.data '*'
  let varName := pyStrip m.g6
  let rest := pyStrip m.g7
  let kws := String.intercalate " " (([constKw, unsignedKw]).filter (fun s => s ≠ ""))
  let keywords := if kws.data.length ≠ 0 then kws ++ " " else kws
  let v : Variable :=
    { type := varType, name := varName, keywords := keywords,
      comments := some comments, ptr_level := ptrCount, rest := some rest }
  { md with globals := dictInsert md.globals varName v }

/-- `parse_structs` (main.py lines 137-189): extract each struct body, strip
methods, then globals, then read the remaining declarations as fields. -/
def parseStructs (code : String) : Meta :=
  (extractStructs code).foldl
    (fun meta nb =>
      let (body1, methodMs) := methodSub nb.2
      let md1 := methodMs.foldl (fun md m => replaceMethod nb.1 md m)
        ({} : StructMetadata)
      let (body2, globalMs) := globalSub body1
      let md2 := globalMs.foldl replaceGlobal md1
      let flds := (declFindAll body2).map (parseVarDecl false)
      dictInsert meta nb.1 { md2 with vars := flds })
    []

/-- `parse_globals` (main.py lines 300-323): single `splitlines` scan with an
`in_scope` flag; lines containing a closing brace reset the flag and are
skipped; outside any scope, lines matching `GLOBAL_VAR_PATTERN` (anchored on
the stripped line) are recorded. -/
def parseGlobalsStep (st : Bool × List Variable) (line : String) :
    Bool × List Variable :=
  let s := pyStrip line
  let st1 := if s.data.any (fun c => c = lbrace) then true else st.1
  if s.data.any (fun c => c = rbrace) then (false, st.2)
  else if st1 then (st1, st.2)
  else
    match declTry none s.data with
    | some m => (st1, st.2 ++ [parseVarDecl true m])
    | none => (st1, st.2)

/-- `parse_globals` over a code string. -/
def parseGlobals (code : String) : List Variable :=
  ((pySplitlines code).foldl parseGlobalsStep (false, [])).2

/-- `build_global_symbol_table` (main.py lines 794-803):
`{var.name: var for var in global_variables}`. -/
def buildGlobalSymbolTable (gvars : List Variable) : Scope :=
  gvars.foldl (fun t v => dictInsert t v.name v) []

/-! ## `fix_types` (main.py lines 385-454) -/

/-- `fix_variable` (main.py lines 387-391).  It compares against the parameter
`name` but builds the replacement from the enclosing loop variable
`struct_name` (a closure over the outer `for struct_name, body in ...` loop),
so the replacement is always the *outer* struct's alias. -/
def fixVariable (outerName targetName : String) (v : Variable) : Variable :=
  if v.type = targetName then { v with type := outerName ++ "_t" } else v

/-- `fix_argument` (lines 398-403): the `'type' in arg` key test is always
true, and a `None` type never equals a struct name; here the comparison and
the replacement both use the parameter `name`. -/
def fixArgument (targetName : String) (a : Option String × String) :
    Option String × String :=
  if a.1 = some targetName then (some (targetName ++ "_t"), a.2) else a

/-- `fix_method` (lines 412-419): return type and argument types, both keyed
on the parameter `name`. -/
def fixMethod (targetName : String) (m : Method) : Method :=
  let rt := if m.return_type = targetName then targetName ++ "_t" else m.return_type
  { m with return_type := rt, arguments := m.arguments.map (fixArgument targetName) }

/-- Update the entry of `key` in an association table by `f` (Python in-place
dict value mutation; `fix_struct` is only invoked on present keys). -/
def dictUpdate {β : Type} (d : List (String × β)) (key : String) (f : β → β) :
    List (String × β) :=
  d.map (fun kv => if kv.1 = key then (kv.1, f kv.2) else kv)

/-- `fix_struct(a, b)` under outer loop variable `outerName` (lines 434-441):
rewrite struct `a`'s fields, methods and globals against target name `b`. -/
def fixStructT (outerName : String) (t : Meta) (a b : String) : Meta :=
  dictUpdate t a
    (fun md =>
      { md with
        vars := md.vars.map (fixVariable outerName b),
        methods := md.methods.map (fun kv => (kv.1, fixMethod b kv.2)),
        globals := md.globals.map (fun kv => (kv.1, fixVariable outerName b kv.2)) })

/-- `fix_types` (lines 444-450): iterate the structs in insertion order,
accumulating `to_fix`, and for each accumulated name run
`fix_struct(name, struct_name)` then `fix_struct(struct_name, name)`. -/
def fixTypes (meta : Meta) : Meta :=
  ((meta.map Prod.fst).foldl
    (fun st structName =>
      let toFix := st.1 ++ [structName]
      let table := toFix.foldl
        (fun t nm => fixStructT structName (fixStructT structName t nm structName) structName nm)
        st.2
      (toFix, table))
    (([] : List String), meta)).2

/-! ## `replace_structs` and `generate_transformed_method` (lines 457-639) -/

/-- Pointer-star run `'*' * n`. -/
def starsStr (n : Nat) : String := String.mk (List.replicate n '*')

/-- Reconstructed field line of `replace_structs` (line 523):
`f"{var.keywords} {var.type} {'*' * var.ptr_level}{var.name};"`. -/
def fieldLine (v : Variable) : String :=
  v.keywords ++ " " ++ v.type ++ " " ++ starsStr v.ptr_level ++ v.name ++ ";"

/-- Globals-aggregate member line (lines 550-554), with the leading comment
block when it is a non-empty string. -/
def globalsMemberLine (v : Variable) : String :=
  let decl := "    " ++ v.keywords ++ " " ++ v.type ++ " " ++ starsStr v.ptr_level ++
    v.name ++ ";"
  match v.comments with
  | some c => if c ≠ "" then c ++ "\n" ++ decl else decl
  | none => decl

/-- `generate_transformed_method` (lines 601-639): returns the emitted text
and the prototype to hoist (`none` when `declare_in_place`). -/
def generateTransformedMethod (dip : Bool) (structName : String) (m : Method) :
    String × Option String :=
  let argString := if m.arguments.length ≥ 1 then ", " else ""
  let transformedArgs := String.intercalate ", "
    (m.arguments.map (fun a =>
      match a.1 with
      | some t => t ++ " " ++ a.2
      | none => a.2))
  let heading :=
    if m.has_self then
      m.return_type ++ " " ++ starsStr m.ptr_level ++ structName ++ "_" ++ m.name ++
        "(" ++ structName ++ "_t *self" ++ argString ++ transformedArgs ++ ")"
    else
      m.return_type ++ " " ++ starsStr m.ptr_level ++ structName ++ "_" ++ m.name ++
        "(" ++ transformedArgs ++ ")"
  let proto := if dip then none else some (heading ++ ";\n")
  let body := heading ++ " \x7b\n    " ++ m.body ++ "\n\x7d\n"
  let commentBlock := String.intercalate "\n" ((pySplitlines m.comments).map pyStrip)
  (commentBlock ++ "\n" ++ body, proto)

/-- Emission for one struct whose metadata is present and not yet done
(lines 521-583): the pieces appended to `transformed_structs` and to
`pre_declarations`, plus the updated metadata (marked done). -/
def emitStruct (dip : Bool) (structName : String) (md : StructMetadata) :
    List String × List String × StructMetadata :=
  let structVars := md.vars.map fieldLine
  let bodyRecon := String.intercalate "\n    " structVars
  let (p1, pre1) :=
    if pyStrip bodyRecon ≠ "" then
      if !dip then
        ([("struct " ++ structName ++ "_s \x7b\n    " ++ bodyRecon ++ "\n\x7d;\n")],
         [("typedef struct " ++ structName ++ "_s " ++ structName ++ "_t;\n")])
      else
        ([("typedef struct " ++ structName ++ "_s " ++ structName ++ "_t;\n" ++
           "struct " ++ structName ++ "_s \x7b\n    " ++ bodyRecon ++ "\n\x7d;\n")], [])
    else ([], [])
  let (p2, pre2) :=
    if md.globals ≠ [] then
      let gbody := String.intercalate "\n" (md.globals.map (fun g => globalsMemberLine g.2))
      if !dip then
        ([("struct " ++ structName ++ "_globals_s \x7b\n" ++ gbody ++ "\n\x7d;\n" ++
           structName ++ "_globals_t " ++ structName ++ "_globals;\n")],
         [("typedef struct " ++ structName ++ "_globals_s " ++ structName ++ "_globals_t;\n")])
      else
        ([("typedef struct " ++ structName ++ "_globals_s " ++ structName ++ "_globals_t;\n" ++
           "struct " ++ structName ++ "_globals_s \x7b\n" ++ gbody ++ "\n\x7d;\n" ++
           structName ++ "_globals_t " ++ structName ++ "_globals;\n")], [])
    else ([], [])
  let methodPieces := md.methods.map (fun kv => generateTransformedMethod dip structName kv.2)
  let p3 := methodPieces.map (fun x => x.1)
  let pre3 := methodPieces.filterMap (fun x => x.2)
  (p1 ++ p2 ++ p3, pre1 ++ pre2 ++ pre3, { md with done := true })

/-- Tail collection of the struct body in `replace_structs` (lines 503-508):
consume following lines while the brace count stays positive. -/
def collectStructTail (bc : Int) : List String → List String
  | [] => []
  | l :: rest => if bc > 0 then collectStructTail (bc + braceDelta l) rest else l :: rest

/-- Line loop of `replace_structs` (lines 470-594).  The header pattern
requires a `{` on the header line, so the source's `else` branch for a
brace on a later line is unreachable and the brace count starts from the
header line's own net count. -/
def replaceStructsGo (dip : Bool) (fuel : Nat) (meta : Meta) (pre : List String) :
    List String → List String × Meta × List String
  | [] => ([], meta, pre)
  | line :: rest =>
    match fuel with
    | 0 => (line :: rest, meta, pre)
    | fuel + 1 =>
      match structHeader line with
      | none =>
        let (out, m2, p2) := replaceStructsGo dip fuel meta pre rest
        (line :: out, m2, p2)
      | some name =>
        let rem := collectStructTail (braceDelta line) rest
        match dictFind meta name with
        | none =>
          -- metadata missing: log only, emit nothing, continue after the body
          replaceStructsGo dip fuel meta pre rem
        | some md =>
          if md.done then replaceStructsGo dip fuel meta pre rem
          else
            let (pieces, newPre, md2) := emitStruct dip name md
            let meta2 := dictInsert meta name md2
            let (out, m3, p3) := replaceStructsGo dip fuel meta2 (pre ++ newPre) rem
            (pieces ++ out, m3, p3)

/-- `replace_structs` (lines 457-599) on a code string: split on newlines,
process, join; returns the new code, updated metadata and hoisted
declarations. -/
def replaceStructs (dip : Bool) (meta : Meta) (code : String) :
    String × Meta × List String :=
  let lines := splitNl code
  let (out, m2, pre) := replaceStructsGo dip lines.length meta [] lines
  (joinNl out, m2, pre)

/-! ## Method-call rewriting (`METHOD_CALL_PATTERN` line 331,
`refactor_method_calls_with_scope` lines 641-769, `resolve_type` 771-792) -/

/-- Groups of a `METHOD_CALL_PATTERN` match
`((?:\*)*)?(\b[a-zA-Z_][a-zA-Z0-9_]*@(?:\w+))\s*\(([^)]*)\)`. -/
structure CallM where
  g1 : String
  g2 : String
  g3 : String
  len : Nat
deriving Repr, DecidableEq

/-- Attempt `METHOD_CALL_PATTERN` at the head of `l`; `prev` is the preceding
character for the `\b` anchor (a star run before the identifier always
establishes the boundary). -/
def mcTry (prev : Option Char) (l : List Char) : Option CallM :=
  let stars := l.takeWhile (fun c => c = '*')
  let r1 := l.drop stars.length
  match r1 with
  | c :: _ =>
    if isIdentStart c &&
        (!stars.isEmpty ||
          (match prev with | some p => !isWordCh p | none => true)) then
      let ident := r1.takeWhile isWordCh
      match r1.drop ident.length with
      | '@' :: r2 =>
        let mname := r2.takeWhile isWordCh
        if mname.isEmpty then none
        else
          let r3 := r2.drop mname.length
          let ws := r3.takeWhile pyIsSpace
          match r3.drop ws.length with
          | '(' :: r4 =>
            let args := r4.takeWhile (fun c2 => c2 ≠ ')')
            match r4.drop args.length with
            | ')' :: _ =>
              some { g1 := String.mk stars,
                     g2 := String.mk (ident ++ '@' :: mname),
                     g3 := String.mk args,
                     len := stars.length + ident.length + 1 + mname.length +
                           ws.length + 1 + args.length + 1 }
            | _ => none
          | _ => none
      | _ => none
    else none
  | [] => none

/-- `resolve_type` (lines 771-792): search the scope stack innermost first
(the head of the list is the innermost scope), then fall back to struct names;
the bound variable's type has its stars removed and is stripped. -/
def resolveType (meta : Meta) (stack : List Scope) (varName : String) :
    Option (String × Nat × Bool) :=
  match stack with
  | sc :: rest =>
    match dictFind sc varName with
    | some v =>
      some (String.mk (stripL (v.type.data.filter (fun c => c ≠ '*'))), v.ptr_level, false)
    | none => resolveType meta rest varName
  | [] =>
    if (dictFind meta varName).isSome then some (varName, 0, true) else none

/-- `method_call.split('@', 1)`. -/
def splitAtAmp (s : String) : String × String :=
  (String.mk (s.data.takeWhile (fun c => c ≠ '@')),
   String.mk (s.data.drop ((s.data.takeWhile (fun c => c ≠ '@')).length + 1)))

/-- `replace_call` (lines 682-734): resolve the receiver, look up the method,
and build the rewritten call; failures raise `TransformationError`. -/
def replaceCall (meta : Meta) (stack : List Scope) (m : CallM) :
    Except String String :=
  let ptrCount := countCh m.g1.data '*'
  let args := pyStrip m.g3
  let (obj, mname) := splitAtAmp m.g2
  match resolveType meta stack obj with
  | none => .error ("Unable to determine type for " ++ obj)
  | some (objType, ptrLevel, isType) =>
    match dictFind meta objType with
    | none => .error ("Type " ++ objType ++ " not found")
    | some md =>
      match dictFind md.methods mname with
      | none => .error ("Method " ++ mname ++ " not found")
      | some meth =>
        let fname := objType ++ "_" ++ mname
        let targs :=
          if meth.has_self && !isType then
            let lvl : Int := (ptrCount : Int) + (ptrLevel : Int) - 1
            let recv :=
              if lvl < 0 then "&" ++ obj
              else starsStr lvl.toNat ++ obj
            if args ≠ "" then recv ++ ", " ++ args else recv
          else args
        .ok (fname ++ "(" ++ pyRstripComma (pyStrip targs) ++ ")")

/-- Driver for `re.sub(METHOD_CALL_PATTERN, replace_call, line)`: a raised
`TransformationError` aborts the whole substitution. -/
def mcSubGo (meta : Meta) (stack : List Scope) (fuel : Nat) (prev : Option Char)
    (l : List Char) : Except String (List Char) :=
  match fuel with
  | 0 => .ok l
  | fuel + 1 =>
    match l with
    | [] => .ok []
    | c :: rest =>
      match mcTry prev l with
      | some m =>
        match replaceCall meta stack m with
        | .error e => .error e
        | .ok repl =>
          (mcSubGo meta stack fuel (some ')') (l.drop m.len)).map
            (fun r => repl.data ++ r)
      | none =>
        (mcSubGo meta stack fuel (some c) rest).map (fun r => c :: r)

/-- Call substitution over one line. -/
def mcSub (meta : Meta) (stack : List Scope) (line : String) :
    Except String String :=
  (mcSubGo meta stack line.data.length none line.data).map String.mk

/-- State of the scope scan: the symbol-table stack (innermost scope first)
and the depth of `brace_stack`. -/
structure RefState where
  scopes : List Scope
  braces : Nat
deriving Repr, DecidableEq

/-- Scope transition of a line (lines 667-677): one push for a line containing
`{`, then one pop (with emptiness guards) for a line containing `}`. -/
def scopeAdjust (st : RefState) (line : String) : RefState :=
  let st1 :=
    if line.data.any (fun c => c = lbrace) then
      { scopes := [] :: st.scopes, braces := st.braces + 1 }
    else st
  if line.data.any (fun c => c = rbrace) then
    { scopes := st1.scopes.tail,
      braces := if st1.braces > 0 then st1.braces - 1 else 0 }
  else st1

/-- Record a binding in the innermost scope:
`symbol_table_stack[-1][variable.name] = variable`.  An empty stack would
raise `IndexError` in the source; that state is unreachable on the inputs
considered here. -/
def insertTop (scopes : List Scope) (v : Variable) : List Scope :=
  match scopes with
  | top :: restSc => dictInsert top v.name v :: restSc
  | [] => []

/-- Output of a declaration line whose type names a known struct (main.py
lines 747-757): insert `_t` after `end(3)` of the line's first declaration
match, then substitute calls; on `TransformationError` keep the original
line.  The `none` arm of `declSearch` is unreachable (the anchored match on
the stripped line guarantees a search hit; the source would fault reading
`new_line[0]` otherwise). -/
def declStructOut (meta : Meta) (scopes : List Scope) (line : String) : String :=
  match declSearch line with
  | some (pos, dm2) =>
    let e3 := pos + dm2.end3
    let newLine := String.mk (line.data.take e3 ++ '_' :: 't' :: line.data.drop e3)
    match mcSub meta scopes newLine with
    | .ok t => t
    | .error _ => line
  | none => line

/-- Output of an ordinary line: substitute calls, keeping the line on a
`TransformationError` (main.py lines 759-765). -/
def plainOut (meta : Meta) (scopes : List Scope) (line : String) : String :=
  match mcSub meta scopes line with
  | .ok t => t
  | .error _ => line

/-- One line of `refactor_method_calls_with_scope` (lines 664-765): scope
push/pop, `}`-line early exit, declaration recording with the `_t` rewrite of
struct-typed declarations, and call substitution with the per-line
`try/except TransformationError` that keeps the original line. -/
def refactorLine (meta : Meta) (st : RefState) (line : String) :
    RefState × String :=
  let stripped := pyStrip line
  if stripped.data.any (fun c => c = rbrace) then (scopeAdjust st stripped, line)
  else
    let st1 :=
      if stripped.data.any (fun c => c = lbrace) then
        { scopes := [] :: st.scopes, braces := st.braces + 1 }
      else st
    match declTry none stripped.data with
    | some dm =>
      let v := parseVarDecl false dm
      let scopes2 := insertTop st1.scopes v
      let st2 : RefState := { scopes := scopes2, braces := st1.braces }
      if (dictFind meta v.type).isSome then (st2, declStructOut meta scopes2 line)
      else (st2, plainOut meta scopes2 line)
    | none => (st1, plainOut meta st1.scopes line)

/-- Fold of `refactorLine` over a list of lines, accumulating output lines. -/
def refactorLines (meta : Meta) (st : RefState) (lines : List String) :
    RefState × List String :=
  lines.foldl
    (fun acc line =>
      let (st2, out) := refactorLine meta acc.1 line
      (st2, acc.2 ++ [out]))
    (st, [])

/-- `refactor_method_calls_with_scope` (lines 641-769) over a code string. -/
def refactorCode (meta : Meta) (gvars : List Variable) (code : String) : String :=
  let init : RefState := { scopes := [buildGlobalSymbolTable gvars], braces := 0 }
  joinNl (refactorLines meta init (pySplitlines code)).2

/-! ## The three textual passes (lines 805-872) and the pipeline -/

/-- Word-character test on an optional character (absent counts as non-word),
for `\b` between two positions. -/
def optWord : Option Char → Bool
  | some c => isWordCh c
  | none => false

/-- Replace every occurrence of `pat` that is delimited by word boundaries on
both sides (`\bPAT\b`) with `repl`. -/
def bReplaceAllGo (fuel : Nat) (pat repl : List Char) (prev : Option Char)
    (l : List Char) : List Char :=
  match fuel with
  | 0 => l
  | fuel + 1 =>
    match l with
    | [] => []
    | c :: rest =>
      let rem := l.drop pat.length
      if pat.isPrefixOf l && pat ≠ [] &&
          (optWord prev != optWord pat.head?) &&
          (optWord pat.getLast? != optWord rem.head?) then
        repl ++ bReplaceAllGo fuel pat repl pat.getLast? rem
      else
        c :: bReplaceAllGo fuel pat repl (some c) rest

/-- Boundary-delimited global replacement on strings. -/
def bReplaceAll (pat repl s : String) : String :=
  String.mk (bReplaceAllGo s.data.length pat.data repl.data none s.data)

/-- `replace_globals` (lines 805-827): for every struct and every global
member, rewrite `\bStruct@member\b` to `(Struct_globals.member)`. -/
def replaceGlobalsPass (meta : Meta) (code : String) : String :=
  meta.foldl
    (fun c entry =>
      entry.2.globals.foldl
        (fun c2 g =>
          bReplaceAll (entry.1 ++ "@" ++ g.1)
            ("(" ++ entry.1 ++ "_globals." ++ g.1 ++ ")") c2)
        c)
    code

/-- Attempt the typecast pattern `\(\s*NAME\s*((?:\*\s*)*)\)` at the head. -/
def typecastTry (structName : List Char) (l : List Char) :
    Option (List Char × Nat) :=
  match l with
  | '(' :: r1 =>
    let ws1 := r1.takeWhile pyIsSpace
    match dropLit structName (r1.drop ws1.length) with
    | some r2 =>
      let ws2 := r2.takeWhile pyIsSpace
      let (sFull, _, sn, r3) := starsLoop (r2.drop ws2.length)
      match r3 with
      | ')' :: _ =>
        some (sFull, 1 + ws1.length + structName.length + ws2.length + sn + 1)
      | _ => none
    | none => none
  | _ => none

/-- Driver for the typecast substitution of one struct name. -/
def typecastSubGo (fuel : Nat) (structName : List Char) (l : List Char) :
    List Char :=
  match fuel with
  | 0 => l
  | fuel + 1 =>
    match l with
    | [] => []
    | c :: rest =>
      match typecastTry structName l with
      | some (stars, n) =>
        ('(' :: structName ++ '_' :: 't' :: stars ++ [')']) ++
          typecastSubGo fuel structName (l.drop n)
      | none => c :: typecastSubGo fuel structName rest

/-- `replace_typecasts` (lines 829-848): `( Name STARS )` becomes
`(Name_t STARS)` for every known struct, preserving the star run. -/
def replaceTypecastsPass (meta : Meta) (code : String) : String :=
  meta.foldl
    (fun c entry => String.mk (typecastSubGo c.data.length entry.1.data c.data))
    code

/-- `replace_function_pointer` (lines 850-872): remaining `\bStruct@method\b`
references become `(Struct_method)`. -/
def replaceFnPtrPass (meta : Meta) (code : String) : String :=
  meta.foldl
    (fun c entry =>
      entry.2.methods.foldl
        (fun c2 m =>
          bReplaceAll (entry.1 ++ "@" ++ m.1)
            ("(" ++ entry.1 ++ "_" ++ m.1 ++ ")") c2)
        c)
    code

/-- `CodeGenerator.generate` (lines 349-383): fix types, replace structs,
refactor calls, the three simple passes, then hoist the collected
declarations. -/
def generate (dip : Bool) (meta : Meta) (gvars : List Variable) (code : String) :
    String :=
  let meta1 := fixTypes meta
  let (code2, meta2, pre) := replaceStructs dip meta1 code
  let code3 := refactorCode meta2 gvars code2
  let code4 := replaceGlobalsPass meta2 code3
  let code5 := replaceTypecastsPass meta2 code4
  let code6 := replaceFnPtrPass meta2 code5
  if !dip then String.join pre ++ code6 else code6

/-- `CodeTransformer.run` (lines 888-916) with the default
`declare_in_place=False`: parse structs and globals, then generate.
(`parse_functions` and the hierarchy are built but never read by the
generator, so they are not modelled.) -/
def pipelineTransform (code : String) : String :=
  generate false (parseStructs code) (parseGlobals code) code

/-- Steps 3 and 4 of `generate` (lines 358-365): call rewriting followed by
the three textual passes, in source order. -/
def callAndTextPasses (meta : Meta) (gvars : List Variable) (code : String) :
    String :=
  replaceFnPtrPass meta
    (replaceTypecastsPass meta (replaceGlobalsPass meta (refactorCode meta gvars code)))

/-! ## Concrete instances used by the theorems below -/

/-- A method `m` on struct `S` with `has_self = true`, as `replace_method`
records it for `int @m(S *self, int k) { ... };`. -/
def sampleMethod : Method :=
  { comments := "", return_type := "int", name := "m",
    arguments := [(some "int", "k")], body := "return k;", has_self := true,
    ptr_level := 0 }

/-- Metadata with the single struct `S` carrying method `m`. -/
def sampleMeta : Meta :=
  [("S", { vars := [], methods := [("m", sampleMethod)], globals := [] })]

/-- Metadata with struct `S` carrying method `m` and global `g`. -/
def sampleMetaG : Meta :=
  [("S", { vars := [], methods := [("m", sampleMethod)],
           globals := [("g", { type := "int", name := "g" })] })]

/-- A scope binding `a` as a value of struct type `S` (`S a;`). -/
def sampleScopeA : Scope := [("a", { type := "S", name := "a" })]

/-! ## Theorems -/

/-- C2, counterexample.  With `S **c;` in scope, the call `*c@m(5)` does not
rewrite to `S_m(c, 5)`: the code computes `netLevel = 1 + 2 - 1 = 2` and
injects `**c`. -/
theorem deref_call_counterexample :
    refactorCode sampleMeta [] "S **c;\n*c@m(5);" ≠ "S_t **c;\nS_m(c, 5);" := by
  decide

/-- C2, amended claim proved: with `S **c;` declared, the call `*c@m(5)`
rewrites to `S_m(**c, 5)` — the leading dereference adds to (rather than
cancels against) the declared pointer level in `netLevel = stars + level - 1`. -/
theorem deref_call_two_stars :
    refactorCode sampleMeta [] "S **c;\n*c@m(5);" = "S_t **c;\nS_m(**c, 5);" := by
  decide

/-- C3, counterexample.  A call whose receiver `y` is neither a bound variable
nor a struct name does not abort the pipeline: the `TransformationError` is
caught per line, the offending line is emitted unchanged, and the full
transformed output is produced. -/
theorem errors_nonfatal_counterexample :
    pipelineTransform "struct S \x7b\nint x;\n\x7d;\nint main() \x7b\ny@M(1);\n\x7d\n" =
      "typedef struct S_s S_t;\nstruct S_s \x7b\n     int x;\n\x7d;\n\nint main() \x7b\ny@M(1);\n\x7d" := by
  decide

/-- C3, amended claim proved: resolution errors are caught line by line — the
line with the unresolvable receiver `z` is copied through unchanged and the
scan continues, so a later valid call is still rewritten. -/
theorem errors_caught_per_line :
    refactorCode sampleMeta [] "S a;\nz@m(1);\na@m(2);" =
      "S_t a;\nz@m(1);\nS_m(&a, 2);" := by
  decide

/-- C4, code bug.  With structs `A` and `B` declared in that order, a field of
`B` of type `A` (and likewise a global of `B` of type `A`) is normalized to
`B_t`, not `A_t`: `fix_variable` compares against its `name` parameter but
builds the replacement from the enclosing loop variable `struct_name`.  The
method return and parameter types of the very same pass are correctly sent to
`A_t`, which shows the field/global behaviour is a slip, not a design choice. -/
theorem fix_types_cross_struct_bug :
    (dictFind (fixTypes
        [("A", {}),
         ("B", { vars := [{ type := "A", name := "f" }],
                 methods := [("m", { comments := "", return_type := "A", name := "m",
                                     arguments := [(some "A", "p")], body := "",
                                     has_self := false })],
                 globals := [("g", { type := "A", name := "g" })] })]) "B").map
      (fun md =>
        (md.vars.map Variable.type,
         md.globals.map (fun kv => kv.2.type),
         md.methods.map (fun kv => (kv.2.return_type, kv.2.arguments.map Prod.fst)))) =
      some (["B_t"], ["B_t"], [("A_t", [some "A_t"])]) ∧ "B_t" ≠ "A_t" := by
  constructor
  · decide
  · decide

/-- C5, counterexample.  The transformer is not idempotent: its own output
still contains `struct S_s { ... };`, which a second run re-parses as a struct
named `S_s` and re-emits as `struct S_s_s` with a fresh typedef. -/
theorem transform_not_idempotent :
    pipelineTransform (pipelineTransform "struct S \x7b\nint x;\n\x7d;") ≠
      pipelineTransform "struct S \x7b\nint x;\n\x7d;" := by
  decide

/-- C6, counterexample.  When `g` is a global (and not a method) of `S`, the
call-context occurrence `S@g(1)` is rewritten as a global access after all:
the call rewriter fails (`UnknownMethod`, caught, line kept) and
`replace_globals`' pattern `\bS@g\b` has no guard against a following `(`,
producing `(S_globals.g)(1);`. -/
theorem global_access_call_context_counterexample :
    callAndTextPasses sampleMetaG [] "S@g(1);" = "(S_globals.g)(1);" := by
  decide

/-- C6, amended claim proved: a bare `S@member` rewrites to
`(S_globals.member)`, and a call-context `S@member(...)` is first attempted
as a method call — rewritten as one when `member` is a method — but when
`member` is only a global the failed call rewrite leaves the line unchanged
and the global-access pass then rewrites it (there is no `(`-lookahead). -/
theorem global_access_rewrite :
    callAndTextPasses sampleMetaG [] "x = S@g;" = "x = (S_globals.g);" ∧
    callAndTextPasses sampleMetaG [] "S@m(1);" = "S_m(1);" := by
  constructor
  · decide
  · decide

/-- C7, counterexample.  A struct whose field list is empty after method
stripping emits no struct definition at all — the emitted text contains not
even the token `struct` (neither `struct S_s` nor its typedef). -/
theorem empty_struct_not_emitted :
    containsSub
      (pipelineTransform "struct S \x7b\nint @m(S *self) \x7b\nreturn 1;\n\x7d;\n\x7d;")
      "struct" = false := by
  decide

/-- C7, amended claim proved: for a struct with a method and zero remaining
fields, emission produces only the method prototype and definition; the
`if struct_body_reconstructed.strip():` guard skips both the struct body and
its typedef. -/
theorem empty_struct_emits_methods_only :
    pipelineTransform "struct S \x7b\nint @m(S *self) \x7b\nreturn 1;\n\x7d;\n\x7d;" =
      "int S_m(S_t *self);\n\nint S_m(S_t *self) \x7b\n    return 1;\n\x7d" := by
  decide

/-- C8, counterexample.  A line containing two opening braces pushes exactly
one scope: from one initial scope the stack reaches depth 2, not the depth 3
(initial scope plus one per brace) that depth-equal-to-brace-nesting would
require. -/
theorem scope_push_per_line_counterexample :
    (refactorLines sampleMeta { scopes := [[]], braces := 0 } ["\x7b \x7b"]).1.scopes.length = 2 ∧
    countCh "\x7b \x7b".data lbrace = 2 ∧ (2 : Nat) ≠ 1 + 2 := by
  refine ⟨by decide, by decide, by decide⟩

/-- C9, counterexample.  On input whose struct body never closes, the
transformation does not fail with an `UnterminatedBlock` error (no such error
exists in the code): it completes and returns output in which the struct has
been silently dropped. -/
theorem unterminated_struct_no_error :
    pipelineTransform "struct S \x7b\nint x;" = "" := by
  decide

/-- C9, amended claim proved: an unterminated struct is silently discarded by
the brace-depth scan — `extract_structs` records nothing for it (and
`replace_structs` then consumes its lines without emitting anything). -/
theorem unterminated_struct_dropped :
    extractStructs "struct S \x7b\nint x;" = [] := by
  decide

/-! ### Helper lemmas on stripping and scanning -/

theorem any_dropWhile_eq (p q : Char → Bool) (l : List Char)
    (h : ∀ c, q c = true → p c = false) : (l.dropWhile q).any p = l.any p := by
  induction l with
  | nil => rfl
  | cons a r ih =>
    by_cases hq : q a = true
    · simp [List.dropWhile_cons, hq, ih, h a hq]
    · simp [List.dropWhile_cons, hq]

theorem any_stripL_eq (p : Char → Bool) (l : List Char)
    (h : ∀ c, pyIsSpace c = true → p c = false) : (stripL l).any p = l.any p := by
  unfold stripL
  rw [List.any_reverse, any_dropWhile_eq p pyIsSpace _ h, List.any_reverse,
    any_dropWhile_eq p pyIsSpace _ h]

theorem any_pyStrip_brace (line : String) (b : Char) (hb : pyIsSpace b = false) :
    (pyStrip line).data.any (fun c => c = b) = line.data.any (fun c => c = b) := by
  show (stripL line.data).any _ = _
  apply any_stripL_eq
  intro c hc
  by_cases hcb : c = b
  · subst hcb; simp [hc] at hb
  · simp [hcb]

theorem insertTop_length (scopes : List Scope) (v : Variable) :
    (insertTop scopes v).length = scopes.length := by
  cases scopes <;> simp [insertTop]

/-- C10.  A line containing `}` is appended to the output unchanged and only
adjusts the scope stack (one push if a `{` is also present, then one pop of
the innermost scope): no call on it is rewritten and no declaration on it is
recorded — `scopeAdjust` touches no bindings. -/
theorem rbrace_line_skipped (meta : Meta) (st : RefState) (line : String)
    (h : rbrace ∈ line.data) :
    refactorLine meta st line = (scopeAdjust st (pyStrip line), line) := by
  have hany : (pyStrip line).data.any (fun c => c = rbrace) = true := by
    rw [any_pyStrip_brace line rbrace (by decide)]
    simp only [List.any_eq_true, decide_eq_true_eq]
    exact ⟨rbrace, h, rfl⟩
  unfold refactorLine
  simp [hany]

/-- C10 witness: a `}`-line whose call `a@m(1)` would otherwise be
rewritable (the receiver is bound and the method exists) is still copied
through untouched. -/
theorem rbrace_line_skipped_witness :
    refactorLine sampleMeta { scopes := [sampleScopeA], braces := 1 } "a@m(1); \x7d" =
      (scopeAdjust { scopes := [sampleScopeA], braces := 1 } (pyStrip "a@m(1); \x7d"),
       "a@m(1); \x7d") :=
  rbrace_line_skipped sampleMeta { scopes := [sampleScopeA], braces := 1 }
    "a@m(1); \x7d" (by decide)

theorem refactorLine_scopes_length (meta : Meta) (st : RefState) (line : String) :
    (refactorLine meta st line).1.scopes.length =
      (let n1 := if line.data.any (fun c => c = lbrace) then st.scopes.length + 1
                 else st.scopes.length
       if line.data.any (fun c => c = rbrace) then n1 - 1 else n1) := by
  have hl := any_pyStrip_brace line lbrace (by decide)
  have hr := any_pyStrip_brace line rbrace (by decide)
  unfold refactorLine scopeAdjust
  rw [← hl, ← hr]
  by_cases h1 : (pyStrip line).data.any (fun c => c = rbrace) = true
  · by_cases h2 : (pyStrip line).data.any (fun c => c = lbrace) = true
    · simp [h1, h2]
    · simp [h1, h2]
  · by_cases h2 : (pyStrip line).data.any (fun c => c = lbrace) = true
    · simp only [h1, h2, if_true, if_false]
      cases hdt : declTry none (pyStrip line).data with
      | none => simp [hdt]
      | some dm =>
        simp only [hdt]
        cases h3 : (dictFind meta (parseVarDecl false dm).type).isSome <;>
          simp [h3, insertTop_length]
    · simp only [h1, h2, if_false]
      cases hdt : declTry none (pyStrip line).data with
      | none => simp [hdt]
      | some dm =>
        simp only [hdt]
        cases h3 : (dictFind meta (parseVarDecl false dm).type).isSome <;>
          simp [h3, insertTop_length]

theorem refactorLines_fst (meta : Meta) (st : RefState) (lines : List String) :
    (refactorLines meta st lines).1 =
      lines.foldl (fun s l => (refactorLine meta s l).1) st := by
  suffices h : ∀ acc : List String,
      (lines.foldl
        (fun acc2 line =>
          let r := refactorLine meta acc2.1 line
          (r.1, acc2.2 ++ [r.2]))
        (st, acc)).1 =
      lines.foldl (fun s l => (refactorLine meta s l).1) st by
    exact h []
  induction lines generalizing st with
  | nil => intro acc; rfl
  | cons l rest ih => intro acc; exact ih (refactorLine meta st l).1 _

theorem data_append (a b : String) : (a ++ b).data = a.data ++ b.data := rfl

theorem countCh_starsStr (s : Nat) : countCh (starsStr s).data '*' = s := by
  show (List.replicate s '*').countP _ = s
  induction s with
  | zero => rfl
  | succ n ih => simp [List.replicate_succ, List.countP_cons, ih]

theorem takeWhile_no_amp (l r : List Char) (h : ∀ c ∈ l, c ≠ '@') :
    (l ++ '@' :: r).takeWhile (fun c => c ≠ '@') = l := by
  induction l with
  | nil => simp
  | cons a t ih =>
    have ha := h a (List.mem_cons_self a t)
    have iht := ih (fun c hc => h c (List.mem_cons_of_mem a hc))
    simp only [List.cons_append, List.takeWhile_cons]
    simp only [ne_eq, decide_not] at iht
    simp [ha, iht]

theorem drop_after_amp (l r : List Char) :
    List.drop (l.length + 1) (l ++ '@' :: r) = r := by
  have h1 : l ++ '@' :: r = (l ++ ['@']) ++ r := by simp
  have h2 : l.length + 1 = (l ++ ['@']).length := by simp
  rw [h1, h2, List.drop_left]

theorem splitAtAmp_append (obj mn : String) (h : ∀ c ∈ obj.data, c ≠ '@') :
    splitAtAmp (obj ++ "@" ++ mn) = (obj, mn) := by
  have hdata : (obj ++ "@" ++ mn).data = obj.data ++ '@' :: mn.data := by
    rw [data_append, data_append]
    have hat : ("@" : String).data = ['@'] := by decide
    rw [hat, List.append_assoc]
    simp
  unfold splitAtAmp
  rw [hdata, takeWhile_no_amp obj.data mn.data h, drop_after_amp]

theorem dropWhile_eq_self_of_head (p : Char → Bool) (l : List Char)
    (h : ∀ c, l.head? = some c → p c = false) : l.dropWhile p = l := by
  cases l with
  | nil => rfl
  | cons a r => simp [List.dropWhile_cons, h a rfl]

theorem stripL_eq_self (l : List Char)
    (h1 : ∀ c, l.head? = some c → pyIsSpace c = false)
    (h2 : ∀ c, l.getLast? = some c → pyIsSpace c = false) : stripL l = l := by
  unfold stripL
  rw [dropWhile_eq_self_of_head _ _ h1]
  rw [dropWhile_eq_self_of_head _ _
    (fun c hc => h2 c (by rwa [List.head?_reverse] at hc))]
  exact l.reverse_reverse

theorem rstripComma_eq_self (s : String)
    (h : ∀ c, s.data.getLast? = some c → c ≠ ',') : pyRstripComma s = s := by
  unfold pyRstripComma
  rw [dropWhile_eq_self_of_head _ _
    (fun c hc => by
      have := h c (by rwa [List.head?_reverse] at hc)
      simp [this])]
  rw [s.data.reverse_reverse]

theorem isWordCh_not_space (c : Char) (h : isWordCh c = true) :
    pyIsSpace c = false := by
  by_contra hs
  have hs2 : pyIsSpace c = true := by
    cases hps : pyIsSpace c
    · exact absurd hps hs
    · rfl
  simp only [pyIsSpace, Bool.or_eq_true, decide_eq_true_eq] at hs2
  rcases hs2 with (((((e | e) | e) | e) | e) | e) <;> subst e <;> simp_all <;>
    revert h <;> decide

/-- C1.  The claimed net pointer-level formula is exactly what `replace_call`
computes for a receiver resolved to a scope binding (`isStaticCall = false`)
of a method with `hasSelf`: with `s` leading stars on the call and declared
pointer level `n`, the injected receiver argument is `&IDENT` when
`s + n = 0` (netLevel `-1`) and `IDENT` prefixed by `s + n - 1` stars
otherwise, giving `S a; a@M(x) ↦ S_M(&a, x)`, `S *b; b@M(x) ↦ S_M(b, x)`,
and `S **c; c@M(x) ↦ S_M(*c, x)`. -/
theorem replace_call_netlevel
    (meta : Meta) (stack : List Scope) (s k n : Nat)
    (obj mn args T : String) (md : StructMetadata) (mt : Method)
    (hobj : ∀ c ∈ obj.data, isWordCh c = true)
    (oh : Char) (hoh : obj.data.head? = some oh)
    (hres : resolveType meta stack obj = some (T, n, false))
    (hmd : dictFind meta T = some md)
    (hmt : dictFind md.methods mn = some mt)
    (hself : mt.has_self = true)
    (ah al : Char)
    (hah : args.data.head? = some ah) (hahs : pyIsSpace ah = false)
    (hal : args.data.getLast? = some al) (hals : pyIsSpace al = false)
    (halc : al ≠ ',') :
    replaceCall meta stack
        { g1 := starsStr s, g2 := obj ++ "@" ++ mn, g3 := args, len := k } =
      .ok (T ++ "_" ++ mn ++ "(" ++
           ((if s + n = 0 then "&" ++ obj else starsStr (s + n - 1) ++ obj) ++
            ", " ++ args) ++ ")") := by
  have hargsne : args.data ≠ [] := by
    intro h0
    rw [h0] at hah
    cases hah
  have hamp : ∀ c ∈ obj.data, c ≠ '@' := by
    intro c hc he
    have := hobj c hc
    rw [he] at this
    exact absurd this (by decide)
  have hstripargs : pyStrip args = args := by
    show String.mk (stripL args.data) = args
    rw [stripL_eq_self args.data
      (fun c hc => by rw [hah] at hc; exact Option.some.inj hc ▸ hahs)
      (fun c hc => by rw [hal] at hc; exact Option.some.inj hc ▸ hals)]
  have hohw : pyIsSpace oh = false :=
    isWordCh_not_space oh (hobj oh (by
      cases hd : obj.data with
      | nil => rw [hd] at hoh; cases hoh
      | cons x xs =>
        rw [hd] at hoh
        cases hoh
        simp [hd]))
  have hargsne0 : args ≠ "" := by
    intro h0
    exact hargsne (by rw [h0])
  -- cleaning of the built argument text
  have hclean : ∀ (recv : String) (rh : Char), recv.data.head? = some rh →
      pyIsSpace rh = false →
      pyRstripComma (pyStrip (recv ++ ", " ++ args)) = recv ++ ", " ++ args := by
    intro recv rh hrh hrhs
    have hdata : (recv ++ ", " ++ args).data =
        recv.data ++ ([',', ' '] ++ args.data) := by
      rw [data_append, data_append]
      simp
    have hrne : recv.data ≠ [] := by
      intro h0
      rw [h0] at hrh
      cases hrh
    have hh : (recv ++ ", " ++ args).data.head? = some rh := by
      rw [hdata, List.head?_append_of_ne_nil _ hrne]
      exact hrh
    have hlst : (recv ++ ", " ++ args).data.getLast? = some al := by
      rw [hdata, List.getLast?_append_of_ne_nil _ (by simp)]
      rw [List.getLast?_append_of_ne_nil _ hargsne]
      exact hal
    have hstrip : pyStrip (recv ++ ", " ++ args) = recv ++ ", " ++ args := by
      show String.mk (stripL _) = _
      rw [stripL_eq_self _
        (fun c hc => by rw [hh] at hc; exact Option.some.inj hc ▸ hrhs)
        (fun c hc => by rw [hlst] at hc; exact Option.some.inj hc ▸ hals)]
    rw [hstrip]
    exact rstripComma_eq_self _
      (fun c hc => by rw [hlst] at hc; exact Option.some.inj hc ▸ halc)
  unfold replaceCall
  simp only [splitAtAmp_append obj mn hamp, hres, hmd, hmt, hself,
    countCh_starsStr, hstripargs, hargsne0, Bool.not_false, Bool.and_true,
    if_true, ne_eq, not_false_eq_true, if_pos]
  by_cases hz : s + n = 0
  · have hs0 : s = 0 := by omega
    have hn0 : n = 0 := by omega
    subst hs0
    subst hn0
    have hcond : ((0 : Nat) : Int) + ((0 : Nat) : Int) - 1 < 0 := by norm_num
    rw [if_pos hcond, if_pos rfl]
    have hampHead : ("&" ++ obj).data.head? = some '&' := by
      rw [data_append]
      rfl
    rw [hclean ("&" ++ obj) '&' hampHead (by decide)]
  · have hcond : ¬(((s : Nat) : Int) + ((n : Nat) : Int) - 1 < 0) := by omega
    have htn : (((s : Nat) : Int) + ((n : Nat) : Int) - 1).toNat = s + n - 1 := by
      omega
    rw [if_neg hcond, if_neg hz, htn]
    by_cases hzz : s + n - 1 = 0
    · rw [hzz]
      have hsz : starsStr 0 ++ obj = obj := by
        show String.mk ([] ++ obj.data) = obj
        rw [List.nil_append]
      rw [hsz, hclean obj oh hoh hohw]
    · obtain ⟨k2, hk2⟩ : ∃ k2, s + n - 1 = k2 + 1 := ⟨s + n - 1 - 1, by omega⟩
      rw [hk2]
      have hsh : (starsStr (k2 + 1) ++ obj).data.head? = some '*' := by
        rw [data_append]
        show (List.replicate (k2 + 1) '*' ++ obj.data).head? = some '*'
        rw [List.replicate_succ]
        rfl
      rw [hclean (starsStr (k2 + 1) ++ obj) '*' hsh (by decide)]

/-- C1 witness: `S a;` in scope and the call `a@m(x)` (zero leading stars,
pointer level 0) yield `S_m(&a, x)` by the theorem. -/
theorem replace_call_netlevel_witness :
    replaceCall sampleMeta [sampleScopeA]
        { g1 := starsStr 0, g2 := "a" ++ "@" ++ "m", g3 := "x", len := 7 } =
      .ok ("S" ++ "_" ++ "m" ++ "(" ++
           ((if 0 + 0 = 0 then "&" ++ "a" else starsStr (0 + 0 - 1) ++ "a") ++
            ", " ++ "x") ++ ")") :=
  replace_call_netlevel sampleMeta [sampleScopeA] 0 7 0 "a" "m" "x" "S"
    { vars := [], methods := [("m", sampleMethod)], globals := [] } sampleMethod
    (by decide) 'a' (by decide) (by decide) (by decide) (by decide) (by decide)
    'x' 'x' (by decide) (by decide) (by decide) (by decide) (by decide)

/-- C8, amended claim proved.  Over any lines, the scope-stack depth evolves
by exactly one push per line containing `{` and one (truncating) pop per line
containing `}` — per line, not per brace, so it does not track the
brace-nesting depth when several braces share a line. -/
theorem scope_depth_per_line (meta : Meta) (st : RefState) (lines : List String) :
    (refactorLines meta st lines).1.scopes.length =
      lines.foldl
        (fun n line =>
          let n1 := if line.data.any (fun c => c = lbrace) then n + 1 else n
          if line.data.any (fun c => c = rbrace) then n1 - 1 else n1)
        st.scopes.length := by
  rw [refactorLines_fst]
  induction lines generalizing st with
  | nil => rfl
  | cons l rest ih =>
    simp only [List.foldl_cons]
    rw [← refactorLine_scopes_length meta st l]
    exact ih (refactorLine meta st l).1

/-! ### Split/join round trips and the fixed point of the pipeline -/

theorem stringDataEq (s t : String) (h : s.data = t.data) : s = t := by
  cases s
  cases t
  cases h
  rfl

theorem nil_str_append (t : String) : "" ++ t = t := by
  apply stringDataEq
  rw [data_append]
  have h0 : ("" : String).data = [] := by decide
  rw [h0, List.nil_append]

theorem joinNl_cons_of_ne_nil (s : String) (rest : List String) (h : rest ≠ []) :
    joinNl (s :: rest) = s ++ "\n" ++ joinNl rest := by
  cases rest with
  | nil => exact absurd rfl h
  | cons x xs => rfl

theorem splitNlGo_ne_nil (l acc : List Char) : splitNlGo acc l ≠ [] := by
  induction l generalizing acc with
  | nil => simp [splitNlGo]
  | cons c r ih =>
    by_cases hc : c = '\n'
    · simp [splitNlGo, hc]
    · simp only [splitNlGo, hc, if_false]
      exact ih (c :: acc)

theorem mk_append_nl (a b : List Char) :
    String.mk a ++ "\n" ++ String.mk b = String.mk (a ++ '\n' :: b) := by
  apply stringDataEq
  rw [data_append, data_append]
  have h1 : ("\n" : String).data = ['\n'] := by decide
  rw [h1]
  simp

theorem joinNl_splitNlGo (l acc : List Char) :
    joinNl (splitNlGo acc l) = String.mk (acc.reverse ++ l) := by
  induction l generalizing acc with
  | nil => simp [splitNlGo, joinNl]
  | cons c r ih =>
    by_cases hc : c = '\n'
    · subst hc
      have hsp : splitNlGo acc ('\n' :: r) = String.mk acc.reverse :: splitNlGo [] r := by
        simp [splitNlGo]
      rw [hsp, joinNl_cons_of_ne_nil _ _ (splitNlGo_ne_nil r []), ih []]
      simp only [List.reverse_nil, List.nil_append]
      exact mk_append_nl acc.reverse r
    · simp only [splitNlGo, hc, if_false]
      rw [ih (c :: acc)]
      apply congrArg
      simp

theorem joinNl_splitNl (t : String) : joinNl (splitNl t) = t := by
  unfold splitNl
  rw [joinNl_splitNlGo]
  simp

theorem getLast?_cons_of_ne_nil (c : Char) (r : List Char) (h : r ≠ []) :
    (c :: r).getLast? = r.getLast? := by
  cases r with
  | nil => exact absurd rfl h
  | cons x xs => simp [List.getLast?_cons_cons]

theorem splitlinesGo_eq_splitNlGo (fuel : Nat) (l acc : List Char)
    (hfuel : l.length ≤ fuel)
    (hnb : ∀ c ∈ l, c ≠ '\r' ∧ isExoticBreak c = false)
    (hlast : l.getLast? ≠ some '\n')
    (hne : acc ≠ [] ∨ l ≠ []) :
    splitlinesGo fuel acc l = splitNlGo acc l := by
  induction fuel generalizing acc l with
  | zero =>
    have hl : l = [] := List.length_eq_zero.mp (Nat.le_zero.mp hfuel)
    subst hl
    have hacc : acc ≠ [] := hne.resolve_right (fun h0 => h0 rfl)
    simp [splitlinesGo, splitNlGo, hacc]
  | succ fuel ih =>
    cases l with
    | nil =>
      have hacc : acc ≠ [] := hne.resolve_right (fun h0 => h0 rfl)
      simp [splitlinesGo, splitNlGo, hacc]
    | cons c r =>
      have hc := hnb c (List.mem_cons_self c r)
      have hnb2 : ∀ d ∈ r, d ≠ '\r' ∧ isExoticBreak d = false :=
        fun d hd => hnb d (List.mem_cons_of_mem _ hd)
      have hlast2 : r.getLast? ≠ some '\n' := by
        cases r with
        | nil => simp
        | cons x xs =>
          rwa [getLast?_cons_of_ne_nil c (x :: xs) (by simp)] at hlast
      have hfuel2 : r.length ≤ fuel := Nat.le_of_succ_le_succ hfuel
      have hbk : breakLen (c :: r) = if c = '\n' then 1 else 0 := by
        show (if c = '\x0d' then (if r.head? = some '\n' then 2 else 1)
              else if c = '\n' || isExoticBreak c then 1 else 0) =
          if c = '\n' then 1 else 0
        rw [if_neg hc.1]
        by_cases hcn : c = '\n'
        · simp [hcn]
        · simp [hcn, hc.2]
      by_cases hcn : c = '\n'
      · subst hcn
        have hrne : r ≠ [] := by
          intro h0
          subst h0
          exact hlast rfl
        show (let k := breakLen ('\n' :: r)
              if k = 0 then splitlinesGo fuel ('\n' :: acc) r
              else String.mk acc.reverse :: splitlinesGo fuel [] (('\n' :: r).drop k)) =
          splitNlGo acc ('\n' :: r)
        rw [hbk]
        simp only [if_pos rfl, List.drop_succ_cons, List.drop_zero]
        rw [if_neg (by decide)]
        show String.mk acc.reverse :: splitlinesGo fuel [] r = splitNlGo acc ('\n' :: r)
        rw [ih r [] hfuel2 hnb2 hlast2 (Or.inr hrne)]
        simp [splitNlGo]
      · show (let k := breakLen (c :: r)
              if k = 0 then splitlinesGo fuel (c :: acc) r
              else String.mk acc.reverse :: splitlinesGo fuel [] ((c :: r).drop k)) =
          splitNlGo acc (c :: r)
        rw [hbk]
        simp only [hcn, if_false, if_pos rfl]
        rw [ih r (c :: acc) hfuel2 hnb2 hlast2 (Or.inl (by simp))]
        simp [splitNlGo, hcn]

theorem pySplitlines_eq_splitNl (t : String)
    (hnb : ∀ c ∈ t.data, c ≠ '\r' ∧ isExoticBreak c = false)
    (hlast : t.data.getLast? ≠ some '\n')
    (hne : t.data ≠ []) : pySplitlines t = splitNl t :=
  splitlinesGo_eq_splitNlGo t.data.length t.data [] (Nat.le_refl _) hnb hlast
    (Or.inr hne)

theorem splitNlGo_chars (l acc : List Char) (line : String)
    (hline : line ∈ splitNlGo acc l) (c : Char) (hc : c ∈ line.data) :
    c ∈ acc ∨ c ∈ l := by
  induction l generalizing acc with
  | nil =>
    simp only [splitNlGo, List.mem_singleton] at hline
    subst hline
    simp only [List.mem_reverse] at hc
    exact Or.inl (by simpa using hc)
  | cons d r ih =>
    by_cases hd : d = '\n'
    · subst hd
      have hsp : splitNlGo acc ('\n' :: r) = String.mk acc.reverse :: splitNlGo [] r := by
        simp [splitNlGo]
      rw [hsp] at hline
      rcases List.mem_cons.mp hline with h1 | h2
      · subst h1
        simp only [List.mem_reverse] at hc
        exact Or.inl (by simpa using hc)
      · rcases ih [] h2 with h3 | h3
        · cases h3
        · exact Or.inr (List.mem_cons_of_mem _ h3)
    · simp only [splitNlGo, hd, if_false] at hline
      rcases ih (d :: acc) hline with h3 | h3
      · rcases List.mem_cons.mp h3 with h4 | h4
        · exact Or.inr (by simp [h4])
        · exact Or.inl h4
      · exact Or.inr (List.mem_cons_of_mem _ h3)

theorem mcTry_no_amp (prev : Option Char) (l : List Char)
    (h : ∀ c ∈ l, c ≠ '@') : mcTry prev l = none := by
  unfold mcTry
  simp only []
  split
  next c tail heq1 =>
    split
    next hcond =>
      split
      next r2 heq2 =>
        exfalso
        have hmem : '@' ∈ l := by
          have hsub := List.drop_subset ((l.takeWhile (fun c => c = '*')).length) l
          have hsub2 := List.drop_subset
            ((l.drop ((l.takeWhile (fun c => c = '*')).length)).takeWhile isWordCh).length
            (l.drop ((l.takeWhile (fun c => c = '*')).length))
          apply hsub
          apply hsub2
          rw [heq2]
          exact List.mem_cons_self _ _
        exact h '@' hmem rfl
      next heq2 => rfl
    next hcond => rfl
  next heq1 => rfl

theorem mcSubGo_ok_self (meta : Meta) (stack : List Scope) (fuel : Nat)
    (prev : Option Char) (l : List Char) (h : ∀ c ∈ l, c ≠ '@') :
    mcSubGo meta stack fuel prev l = .ok l := by
  induction fuel generalizing prev l with
  | zero => rfl
  | succ fuel ih =>
    cases l with
    | nil => rfl
    | cons c rest =>
      unfold mcSubGo
      rw [mcTry_no_amp prev _ h]
      simp only []
      rw [ih (some c) rest (fun d hd => h d (List.mem_cons_of_mem _ hd))]
      rfl

theorem mcSub_ok_self (meta : Meta) (stack : List Scope) (line : String)
    (h : ∀ c ∈ line.data, c ≠ '@') : mcSub meta stack line = .ok line := by
  unfold mcSub
  rw [mcSubGo_ok_self meta stack _ none line.data h]
  rfl

theorem plainOut_self (meta : Meta) (scopes : List Scope) (line : String)
    (h : ∀ c ∈ line.data, c ≠ '@') : plainOut meta scopes line = line := by
  unfold plainOut
  rw [mcSub_ok_self meta scopes line h]

theorem refactorLine_snd_self (st : RefState) (line : String)
    (h : ∀ c ∈ line.data, c ≠ '@') :
    (refactorLine [] st line).2 = line := by
  unfold refactorLine
  simp only []
  split
  next => rfl
  next =>
    split
    next dm heq =>
      have hnone : dictFind ([] : Meta) (parseVarDecl false dm).type = none := rfl
      rw [hnone]
      simp only [Option.isSome_none, Bool.false_eq_true, if_false]
      exact plainOut_self _ _ line h
    next => exact plainOut_self _ _ line h

theorem refactorLines_snd_self (st : RefState) (lines : List String)
    (h : ∀ line ∈ lines, ∀ c ∈ line.data, c ≠ '@') :
    (refactorLines ([] : Meta) st lines).2 = lines := by
  suffices haux : ∀ (st2 : RefState) (acc : List String),
      (lines.foldl
        (fun acc2 line =>
          let r := refactorLine ([] : Meta) acc2.1 line
          (r.1, acc2.2 ++ [r.2]))
        (st2, acc)).2 = acc ++ lines by
    exact haux st []
  induction lines with
  | nil => intro st2 acc; simp
  | cons l rest ih =>
    intro st2 acc
    simp only [List.foldl_cons]
    rw [refactorLine_snd_self st2 l (h l (List.mem_cons_self l rest))]
    rw [ih (fun line hl => h line (List.mem_cons_of_mem _ hl))
      (refactorLine [] st2 l).1 (acc ++ [l])]
    simp

theorem refactorCode_self (gvars : List Variable) (t : String)
    (hnb : ∀ c ∈ t.data, c ≠ '\r' ∧ isExoticBreak c = false)
    (hlast : t.data.getLast? ≠ some '\n')
    (hne : t.data ≠ [])
    (hamp : ∀ c ∈ t.data, c ≠ '@') :
    refactorCode ([] : Meta) gvars t = t := by
  unfold refactorCode
  simp only []
  rw [pySplitlines_eq_splitNl t hnb hlast hne]
  rw [refactorLines_snd_self _ _
    (fun line hl c hc => by
      rcases splitNlGo_chars t.data [] line hl c hc with h1 | h1
      · cases h1
      · exact hamp c h1)]
  exact joinNl_splitNl t

theorem extractGo_none (fuel : Nat) (lines : List String)
    (h : ∀ line ∈ lines, structHeader line = none) :
    extractGo fuel lines = [] := by
  induction fuel generalizing lines with
  | zero => cases lines <;> rfl
  | succ fuel ih =>
    cases lines with
    | nil => rfl
    | cons l rest =>
      unfold extractGo
      rw [h l (List.mem_cons_self l rest)]
      exact ih rest (fun l2 h2 => h l2 (List.mem_cons_of_mem _ h2))

theorem parseStructs_nil (t : String)
    (h : ∀ line ∈ splitNl t, structHeader line = none) :
    parseStructs t = [] := by
  unfold parseStructs extractStructs
  rw [extractGo_none _ _ h]
  rfl

theorem replaceStructsGo_self (dip : Bool) (fuel : Nat) (meta : Meta)
    (pre : List String) (lines : List String)
    (h : ∀ line ∈ lines, structHeader line = none) :
    replaceStructsGo dip fuel meta pre lines = (lines, meta, pre) := by
  induction lines generalizing fuel with
  | nil => cases fuel <;> rfl
  | cons l rest ih =>
    cases fuel with
    | zero => rfl
    | succ fuel =>
      unfold replaceStructsGo
      rw [h l (List.mem_cons_self l rest)]
      simp only []
      rw [ih fuel (fun l2 h2 => h l2 (List.mem_cons_of_mem _ h2))]

theorem replaceStructs_self (dip : Bool) (meta : Meta) (t : String)
    (h : ∀ line ∈ splitNl t, structHeader line = none) :
    replaceStructs dip meta t = (t, meta, []) := by
  unfold replaceStructs
  simp only []
  rw [replaceStructsGo_self dip _ meta [] (splitNl t) h]
  simp only []
  rw [joinNl_splitNl]

/-- C5, amended claim proved.  Re-running on the transformer's own output is
not a no-op in general (see the counterexample), but the transformer is the
identity on any text that contains no `@`, no carriage return or exotic
line-break characters, no trailing newline, and no struct-definition header
line — in particular a second run changes the first run's output exactly when
that output still contains emitted struct headers. -/
theorem transform_noop_when_inert (t : String)
    (hne : t.data ≠ [])
    (hq : ∀ c ∈ t.data, c ≠ '@' ∧ c ≠ '\r' ∧ isExoticBreak c = false)
    (hnl : t.data.getLast? ≠ some '\n')
    (hhdr : ∀ line ∈ splitNl t, structHeader line = none) :
    pipelineTransform t = t := by
  unfold pipelineTransform generate
  rw [parseStructs_nil t hhdr]
  have hfix : fixTypes [] = [] := rfl
  rw [hfix]
  simp only []
  rw [replaceStructs_self false [] t hhdr]
  simp only []
  rw [refactorCode_self (parseGlobals t) t
    (fun c hc => ⟨(hq c hc).2.1, (hq c hc).2.2⟩) hnl hne
    (fun c hc => (hq c hc).1)]
  show String.join [] ++ t = t
  rw [show String.join [] = "" from rfl]
  exact nil_str_append t

/-- C5 witness for the amended no-op: a line of plain C with no structs and
no `@` is a fixed point of the whole pipeline. -/
theorem transform_noop_when_inert_witness :
    pipelineTransform "int x;" = "int x;" :=
  transform_noop_when_inert "int x;" (by decide) (by decide) (by decide)
    (by decide)

end NamespaceC
